import Mathlib

/-
A verification development for the lonli.live repository (src/main.js,
"Hybrid Retro edition" document — the one the claims cite by line number).

Modelling conventions:
* JS numbers are modelled as real numbers (ℝ); JS `Math.sin`, `Math.exp`,
  `Math.pow`, `Math.atan2`, `Math.sqrt` become their exact real counterparts.
* Wall-clock time (`new Date()` UTC hours, `performance.now()`) and
  `Math.random()` are passed in as explicit parameters.
* The nullable globals `userLat`/`userLng` become `Option ℝ` parameters.
* The JS `%` remainder (sign of the dividend, truncation toward zero) is
  modelled by `jsMod`.
-/

noncomputable section

namespace LonliLive

/-- JS helper `clamp01(x)` from src/main.js: `Math.max(0, Math.min(1, x))`. -/
def clamp01 (x : ℝ) : ℝ := max 0 (min 1 x)

/-- JS helper `lerp(a,b,t)` from src/main.js: `a + (b-a)*t`. -/
def lerp (a b t : ℝ) : ℝ := a + (b - a) * t

/-- Truncation toward zero on ℝ, the rounding used by the JS `%` operator. -/
def jsTrunc (x : ℝ) : ℤ := if 0 ≤ x then ⌊x⌋ else ⌈x⌉

/-- The JS remainder `x % y`, which has the sign of the dividend:
`x - y * trunc(x / y)`. -/
def jsMod (x y : ℝ) : ℝ := x - y * (jsTrunc (x / y) : ℝ)

/-- JS `Math.atan2(y, x)`. -/
def atan2 (y x : ℝ) : ℝ :=
  if 0 < x then Real.arctan (y / x)
  else if x < 0 then
    (if 0 ≤ y then Real.arctan (y / x) + Real.pi else Real.arctan (y / x) - Real.pi)
  else
    (if 0 < y then Real.pi / 2 else if y < 0 then -(Real.pi / 2) else 0)

/-- A station record as loaded from stations.json (field names as in the
JSON/JS source). -/
structure Station where
  lat : ℝ
  lng : ℝ
  power_watts : ℝ
  frequency_khz : ℝ
  audio : String

/-- `haversineKm(lat1, lon1, lat2, lon2)` from src/main.js. -/
def haversineKm (lat1 lon1 lat2 lon2 : ℝ) : ℝ :=
  let R : ℝ := 6371
  let toR : ℝ := Real.pi / 180
  let dLat := (lat2 - lat1) * toR
  let dLon := (lon2 - lon1) * toR
  let a := Real.sin (dLat / 2) * Real.sin (dLat / 2) +
           Real.cos (lat1 * toR) * Real.cos (lat2 * toR) *
           Real.sin (dLon / 2) * Real.sin (dLon / 2)
  let c := 2 * atan2 (Real.sqrt a) (Real.sqrt (1 - a))
  R * c

/-- `isStationNight(station)` from src/main.js, with the current UTC hour
(`new Date().getUTCHours() + minutes/60`) passed in as `nowUtcH`. -/
def isStationNight (nowUtcH : ℝ) (station : Station) : Bool :=
  let offset := station.lng / 15.0
  let localH := jsMod (jsMod (nowUtcH + offset) 24 + 24) 24
  if localH < 6 ∨ 18 ≤ localH then true else false

/-- `frequencyMatchFactor(stationFreqKHz, tunedFreqKHz, stationIsNight)`
from src/main.js. -/
def frequencyMatchFactor (stationFreqKHz tunedFreqKHz : ℝ) (stationIsNight : Bool) : ℝ :=
  let bandwidth : ℝ := if stationIsNight then 14000 else 18000
  let delta := |stationFreqKHz - tunedFreqKHz|
  Real.exp (-(delta * delta) / (2 * bandwidth * bandwidth))

/-- `computeStationSignalFraction(station, freqKHz)` from src/main.js.
The globals `userLat`/`userLng` (null until geolocation resolves) and the
current UTC hour (read inside `isStationNight`) are explicit parameters.
The JS function is total (it never throws); its Lean model is a total
function. -/
def computeStationSignalFraction (nowUtcH : ℝ) (userLat userLng : Option ℝ)
    (station : Station) (freqKHz : ℝ) : ℝ :=
  match userLat, userLng with
  | some uLat, some uLng =>
    let POWER_SCALE : ℝ := 1500
    let DIST_MIN_KM : ℝ := 5.0
    let DIST_EXP : ℝ := 1.7
    let dKm := haversineKm uLat uLng station.lat station.lng + 0.0001
    let distPart := station.power_watts * POWER_SCALE / (max dKm DIST_MIN_KM) ^ DIST_EXP
    let night := isStationNight nowUtcH station
    let freqPart := frequencyMatchFactor station.frequency_khz freqKHz night
    let nightBoost := if night then lerp 1.0 1.5 (clamp01 (1 - (freqKHz - 3000) / 12000)) else 1.0
    let x := distPart * freqPart * nightBoost
    clamp01 (x / (1 + x))
  | _, _ => 0

/-- One step of the accumulator loop inside `findBestStation`
(`if (f > bestF) { bestF = f; best = s; }`), abstracted over the
per-station fraction function. -/
def bestStep (frac : Station → ℝ) (acc : Option Station × ℝ) (s : Station) :
    Option Station × ℝ :=
  if acc.2 < frac s then (some s, frac s) else acc

/-- `findBestStation(freqKHz)` from src/main.js (the `stations` global and the
listener state are explicit parameters). -/
def findBestStation (nowUtcH : ℝ) (userLat userLng : Option ℝ)
    (stations : List Station) (freqKHz : ℝ) : Option Station × ℝ :=
  if stations.length = 0 then (none, 0)
  else stations.foldl (fun acc s =>
    let f := computeStationSignalFraction nowUtcH userLat userLng s freqKHz
    if acc.2 < f then (some s, f) else acc) (none, 0)

/-- The mutable state threaded through `applyAudioUpdates` ticks:
`qsbPhase` and `lastTime` (src/main.js lines 217-218). -/
structure AudioState where
  qsbPhase : ℝ
  lastTime : ℝ

/-- The smoothed parameter targets that one `applyAudioUpdates` call pushes
into the audio graph. -/
structure AudioTargets where
  filtHz : ℝ
  filtQ : ℝ
  baseGain : ℝ
  noiseLvl : ℝ
  noiseCut : ℝ
  stationGainFinal : ℝ

/-- `applyAudioUpdates(freqKHz, bestStation, strength)` from src/main.js,
with `performance.now()` as `now` and `Math.random()` as `rand`.  Returns the
updated `(qsbPhase, lastTime)` state plus the parameter targets written to
the audio nodes.  (The early return when the audio context is uninitialized
only suppresses the writes; the computation itself is as modelled.) -/
def applyAudioUpdates (st : AudioState) (freqKHz : ℝ) (bestStation : Option Station)
    (strength now rand : ℝ) : AudioState × AudioTargets :=
  let filtHz := max 300 (freqKHz * 10)
  let filtQ := 1 + (1 - strength) * 4
  let baseGain := clamp01 (strength ^ (0.9 : ℝ))
  let noiseLvl := lerp 0.9 0.02 strength
  let noiseCut := lerp 9000 2000 strength
  let qsbDepth := clamp01 (1 - strength)
  let qsbRate := lerp 0.08 1.2 qsbDepth
  let dt := (now - st.lastTime) / 1000
  let qsbPhase := st.qsbPhase + qsbRate * dt
  let lfo := Real.sin (2 * Real.pi * qsbPhase)
  let stochastic := (rand - 0.5) * 0.2
  let mod := lfo * qsbDepth * (0.4 + stochastic) * baseGain
  (⟨qsbPhase, now⟩, ⟨filtHz, filtQ, baseGain, noiseLvl, noiseCut, max 0 (baseGain + mod)⟩)

/-- One update-loop tick of `applyAudioUpdates` inputs: tuned frequency,
best station, strength, `performance.now()` and `Math.random()` values. -/
structure Tick where
  freqKHz : ℝ
  bestStation : Option Station
  strength : ℝ
  now : ℝ
  rand : ℝ

/-- Iterating the `applyAudioUpdates` state over a sequence of ticks. -/
def runAudioUpdates (st : AudioState) : List Tick → AudioState
  | [] => st
  | tk :: rest =>
    runAudioUpdates (applyAudioUpdates st tk.freqKHz tk.bestStation tk.strength tk.now tk.rand).1 rest

/-- `performance.now()` is non-decreasing: each tick's `now` is at least the
`lastTime` recorded by the previous tick. -/
def ticksValid (st : AudioState) : List Tick → Prop
  | [] => True
  | tk :: rest =>
    st.lastTime ≤ tk.now ∧
    ticksValid (applyAudioUpdates st tk.freqKHz tk.bestStation tk.strength tk.now tk.rand).1 rest

/-- Observable state of the `<audio>` element that the update loop's
source-switch block mutates: its `src`, its `loop` flag, and a count of
`play()` invocations (a restart increments it). -/
structure AudioElState where
  src : String
  loop : Bool
  playCount : Nat

/-- Whether `pat` occurs at the head of `s` (character-list version). -/
def listStartsWith : List Char → List Char → Bool
  | _, [] => true
  | [], _ :: _ => false
  | a :: s, b :: p => a == b && listStartsWith s p

/-- JS `String.prototype.indexOf`: index of the first occurrence of `pat`
in `s`, or -1. -/
def jsIndexOf : List Char → List Char → Int
  | [], p => if listStartsWith [] p then 0 else -1
  | c :: s, p =>
    if listStartsWith (c :: s) p then 0
    else
      let r := jsIndexOf s p
      if r = -1 then -1 else r + 1

/-- The station-source switch block inside `startUpdateLoop` (src/main.js
lines 291-297): `if (r.station && r.station.audio) { if (!audioEl.src ||
audioEl.src.indexOf(r.station.audio) === -1) { audioEl.src = ...; audioEl.loop
= true; audioEl.play(); } }`. -/
def switchStationSource (ael : AudioElState) (station : Option Station) : AudioElState :=
  match station with
  | none => ael
  | some s =>
    if s.audio ≠ "" then
      (if ael.src = "" ∨ jsIndexOf ael.src.data s.audio.data = -1 then
        { src := s.audio, loop := true, playCount := ael.playCount + 1 }
      else ael)
    else ael

/-- The concrete station of the spec's end-to-end test: (51.0, -0.10),
50000 W, 9600 kHz. -/
def st7 : Station :=
  { lat := 51.0, lng := -0.10, power_watts := 50000, frequency_khz := 9600,
    audio := "audio/station.mp3" }

/- ------------------------------------------------------------------ -/
/- Helper lemmas                                                      -/
/- ------------------------------------------------------------------ -/

theorem clamp01_nonneg (x : ℝ) : 0 ≤ clamp01 x := le_max_left 0 _

theorem clamp01_le_one (x : ℝ) : clamp01 x ≤ 1 := by
  unfold clamp01
  exact max_le (by norm_num) (min_le_left 1 x)

theorem clamp01_eq_self {x : ℝ} (h0 : 0 ≤ x) (h1 : x ≤ 1) : clamp01 x = x := by
  unfold clamp01
  rw [min_eq_right h1, max_eq_right h0]

theorem clamp01_mem {x : ℝ} : 0 ≤ clamp01 x ∧ clamp01 x ≤ 1 :=
  ⟨clamp01_nonneg x, clamp01_le_one x⟩

/-- The saturating normalization x / (1 + x) stays in [0, 1] for x ≥ 0. -/
theorem satlin_nonneg {x : ℝ} (h : 0 ≤ x) : 0 ≤ x / (1 + x) :=
  div_nonneg h (by linarith)

theorem satlin_le_one {x : ℝ} (h : 0 ≤ x) : x / (1 + x) ≤ 1 := by
  rw [div_le_one (by linarith)]
  linarith

theorem satlin_lt_satlin {a b : ℝ} (ha : 0 ≤ a) (hab : a < b) :
    a / (1 + a) < b / (1 + b) := by
  rw [div_lt_div_iff (by linarith) (by linarith)]
  nlinarith

theorem satlin_le_satlin {a b : ℝ} (ha : 0 ≤ a) (hab : a ≤ b) :
    a / (1 + a) ≤ b / (1 + b) := by
  rw [div_le_div_iff (by linarith) (by linarith)]
  nlinarith

theorem clamp_satlin_lt {a b : ℝ} (ha : 0 ≤ a) (hab : a < b) :
    clamp01 (a / (1 + a)) < clamp01 (b / (1 + b)) := by
  rw [clamp01_eq_self (satlin_nonneg ha) (satlin_le_one ha),
      clamp01_eq_self (satlin_nonneg (le_trans ha (le_of_lt hab)))
        (satlin_le_one (le_trans ha (le_of_lt hab)))]
  exact satlin_lt_satlin ha hab

theorem clamp_satlin_le {a b : ℝ} (ha : 0 ≤ a) (hab : a ≤ b) :
    clamp01 (a / (1 + a)) ≤ clamp01 (b / (1 + b)) := by
  rw [clamp01_eq_self (satlin_nonneg ha) (satlin_le_one ha),
      clamp01_eq_self (satlin_nonneg (le_trans ha hab)) (satlin_le_one (le_trans ha hab))]
  exact satlin_le_satlin ha hab

theorem atan2_nonneg (y x : ℝ) (hy : 0 ≤ y) : 0 ≤ atan2 y x := by
  unfold atan2
  have hpi := Real.pi_pos
  have harct := Real.neg_pi_div_two_lt_arctan (y / x)
  by_cases h1 : 0 < x
  · rw [if_pos h1]
    exact Real.arctan_zero ▸ Real.arctan_strictMono.monotone (div_nonneg hy h1.le)
  · rw [if_neg h1]
    by_cases h2 : x < 0
    · rw [if_pos h2, if_pos hy]
      linarith
    · rw [if_neg h2]
      by_cases h3 : 0 < y
      · rw [if_pos h3]
        linarith
      · rw [if_neg h3, if_neg (by linarith : ¬y < 0)]

theorem atan2_zero_one : atan2 0 1 = 0 := by
  unfold atan2
  rw [if_pos (by norm_num : (0:ℝ) < 1)]
  norm_num [Real.arctan_zero]

/-- The body of `haversineKm` with its local bindings expanded. -/
theorem haversineKm_def (lat1 lon1 lat2 lon2 : ℝ) :
    haversineKm lat1 lon1 lat2 lon2 =
      6371 * (2 * atan2
        (Real.sqrt (Real.sin ((lat2 - lat1) * (Real.pi / 180) / 2) *
            Real.sin ((lat2 - lat1) * (Real.pi / 180) / 2) +
          Real.cos (lat1 * (Real.pi / 180)) * Real.cos (lat2 * (Real.pi / 180)) *
            Real.sin ((lon2 - lon1) * (Real.pi / 180) / 2) *
            Real.sin ((lon2 - lon1) * (Real.pi / 180) / 2)))
        (Real.sqrt (1 - (Real.sin ((lat2 - lat1) * (Real.pi / 180) / 2) *
            Real.sin ((lat2 - lat1) * (Real.pi / 180) / 2) +
          Real.cos (lat1 * (Real.pi / 180)) * Real.cos (lat2 * (Real.pi / 180)) *
            Real.sin ((lon2 - lon1) * (Real.pi / 180) / 2) *
            Real.sin ((lon2 - lon1) * (Real.pi / 180) / 2))))) := rfl

/-- The haversine `a` term is symmetric in the two points. -/
theorem haversine_a_symm (lat1 lon1 lat2 lon2 : ℝ) :
    Real.sin ((lat2 - lat1) * (Real.pi / 180) / 2) * Real.sin ((lat2 - lat1) * (Real.pi / 180) / 2) +
      Real.cos (lat1 * (Real.pi / 180)) * Real.cos (lat2 * (Real.pi / 180)) *
      Real.sin ((lon2 - lon1) * (Real.pi / 180) / 2) * Real.sin ((lon2 - lon1) * (Real.pi / 180) / 2) =
    Real.sin ((lat1 - lat2) * (Real.pi / 180) / 2) * Real.sin ((lat1 - lat2) * (Real.pi / 180) / 2) +
      Real.cos (lat2 * (Real.pi / 180)) * Real.cos (lat1 * (Real.pi / 180)) *
      Real.sin ((lon1 - lon2) * (Real.pi / 180) / 2) * Real.sin ((lon1 - lon2) * (Real.pi / 180) / 2) := by
  have e1 : (lat1 - lat2) * (Real.pi / 180) / 2 = -((lat2 - lat1) * (Real.pi / 180) / 2) := by ring
  have e2 : (lon1 - lon2) * (Real.pi / 180) / 2 = -((lon2 - lon1) * (Real.pi / 180) / 2) := by ring
  rw [e1, e2, Real.sin_neg, Real.sin_neg]
  ring

/- ------------------------------------------------------------------ -/
/- C1 and C3                                                          -/
/- ------------------------------------------------------------------ -/

/-- C1: for every station record with positive transmit power, every tuned
frequency, and every listener state (position known or not, any distance,
any time), `computeStationSignalFraction` returns a value in [0, 1]. -/
theorem computeStationSignalFraction_mem_unit (nowUtcH : ℝ) (userLat userLng : Option ℝ)
    (station : Station) (freqKHz : ℝ) (hp : 0 < station.power_watts) :
    0 ≤ computeStationSignalFraction nowUtcH userLat userLng station freqKHz ∧
    computeStationSignalFraction nowUtcH userLat userLng station freqKHz ≤ 1 := by
  unfold computeStationSignalFraction
  match userLat, userLng with
  | some uLat, some uLng => exact clamp01_mem
  | some uLat, none => exact ⟨le_refl 0, by norm_num⟩
  | none, some uLng => exact ⟨le_refl 0, by norm_num⟩
  | none, none => exact ⟨le_refl 0, by norm_num⟩

/-- C1 witness: the bound instantiated at the end-to-end test configuration. -/
theorem computeStationSignalFraction_mem_unit_witness :
    0 < st7.power_watts ∧
    (0 ≤ computeStationSignalFraction 0 (some 51.5) (some (-0.12)) st7 9600 ∧
     computeStationSignalFraction 0 (some 51.5) (some (-0.12)) st7 9600 ≤ 1) :=
  ⟨by norm_num [st7],
   computeStationSignalFraction_mem_unit 0 (some 51.5) (some (-0.12)) st7 9600
     (by norm_num [st7])⟩

/-- C3: whenever the listener position is not yet known (latitude or
longitude unset), `computeStationSignalFraction` returns exactly 0, for any
station, tuned frequency and time; being a total function, it does not
throw. -/
theorem computeStationSignalFraction_unknown_pos (nowUtcH : ℝ) (userLat userLng : Option ℝ)
    (station : Station) (freqKHz : ℝ) (h : userLat = none ∨ userLng = none) :
    computeStationSignalFraction nowUtcH userLat userLng station freqKHz = 0 := by
  unfold computeStationSignalFraction
  rcases h with h | h <;> subst h
  · rfl
  · match userLat with
    | some uLat => rfl
    | none => rfl

/-- C3 witness: listener latitude unset forces a zero fraction. -/
theorem computeStationSignalFraction_unknown_pos_witness :
    ((none : Option ℝ) = none ∨ (some (-0.12) : Option ℝ) = none) ∧
    computeStationSignalFraction 0 none (some (-0.12)) st7 9600 = 0 :=
  ⟨Or.inl rfl,
   computeStationSignalFraction_unknown_pos 0 none (some (-0.12)) st7 9600 (Or.inl rfl)⟩

/- ------------------------------------------------------------------ -/
/- C6                                                                 -/
/- ------------------------------------------------------------------ -/

/-- C6: `haversineKm` is non-negative for every pair of lat/lon points,
returns 0 when the two points are identical, and is symmetric. -/
theorem haversineKm_nonneg_zero_symm (lat1 lon1 lat2 lon2 : ℝ) :
    0 ≤ haversineKm lat1 lon1 lat2 lon2 ∧
    haversineKm lat1 lon1 lat1 lon1 = 0 ∧
    haversineKm lat1 lon1 lat2 lon2 = haversineKm lat2 lon2 lat1 lon1 := by
  refine ⟨?_, ?_, ?_⟩
  · rw [haversineKm_def]
    refine mul_nonneg (by norm_num) (mul_nonneg (by norm_num) ?_)
    exact atan2_nonneg _ _ (Real.sqrt_nonneg _)
  · rw [haversineKm_def]
    simp only [sub_self, zero_mul, zero_div, Real.sin_zero, mul_zero, zero_add, sub_zero,
      Real.sqrt_zero, Real.sqrt_one, atan2_zero_one]
  · rw [haversineKm_def, haversineKm_def, haversine_a_symm lat1 lon1 lat2 lon2]

/- ------------------------------------------------------------------ -/
/- Evaluating the day/night classifier at concrete instants           -/
/- ------------------------------------------------------------------ -/

theorem jsTrunc_eq_zero {x : ℝ} (h1 : -1 < x) (h2 : x < 1) : jsTrunc x = 0 := by
  unfold jsTrunc
  by_cases h : 0 ≤ x
  · rw [if_pos h]
    exact Int.floor_eq_zero_iff.mpr (Set.mem_Ico.mpr ⟨h, h2⟩)
  · rw [if_neg h]
    exact Int.ceil_eq_zero_iff.mpr (Set.mem_Ioc.mpr ⟨h1, by linarith⟩)

theorem jsTrunc_eq_one {x : ℝ} (h1 : 1 ≤ x) (h2 : x < 2) : jsTrunc x = 1 := by
  unfold jsTrunc
  rw [if_pos (by linarith)]
  exact Int.floor_eq_iff.mpr ⟨by exact_mod_cast h1, by push_cast; linarith⟩

theorem jsMod_eq_of_trunc {x y : ℝ} {n : ℤ} (h : jsTrunc (x / y) = n) :
    jsMod x y = x - y * (n : ℝ) := by
  unfold jsMod
  rw [h]

/-- The body of `isStationNight` with its local bindings expanded. -/
theorem isStationNight_def (nowUtcH : ℝ) (station : Station) :
    isStationNight nowUtcH station =
      (if jsMod (jsMod (nowUtcH + station.lng / 15.0) 24 + 24) 24 < 6 ∨
          18 ≤ jsMod (jsMod (nowUtcH + station.lng / 15.0) 24 + 24) 24
       then true else false) := rfl

/-- At 00:00 UTC the station at longitude -0.10 has local hour ≈ 23.993, so
it is classified as night. -/
theorem isStationNight_st7_at0 : isStationNight 0 st7 = true := by
  rw [isStationNight_def, show st7.lng = (-0.10 : ℝ) from rfl]
  have e1 : jsMod ((0 : ℝ) + -0.10 / 15.0) 24 = -(1 / 150) := by
    rw [jsMod_eq_of_trunc (jsTrunc_eq_zero (by norm_num) (by norm_num))]
    norm_num
  rw [e1]
  have e2 : jsMod (-(1 / 150 : ℝ) + 24) 24 = 3599 / 150 := by
    rw [jsMod_eq_of_trunc (jsTrunc_eq_zero (by norm_num) (by norm_num))]
    norm_num
  rw [e2, if_pos (Or.inr (by norm_num : (18 : ℝ) ≤ 3599 / 150))]

/-- At 12:00 UTC the station at longitude -0.10 has local hour ≈ 11.993, so
it is classified as day. -/
theorem isStationNight_st7_at12 : isStationNight 12 st7 = false := by
  rw [isStationNight_def, show st7.lng = (-0.10 : ℝ) from rfl]
  have e1 : jsMod ((12 : ℝ) + -0.10 / 15.0) 24 = 1799 / 150 := by
    rw [jsMod_eq_of_trunc (jsTrunc_eq_zero (by norm_num) (by norm_num))]
    norm_num
  rw [e1]
  have e2 : jsMod ((1799 / 150 : ℝ) + 24) 24 = 1799 / 150 := by
    rw [jsMod_eq_of_trunc (jsTrunc_eq_one (by norm_num) (by norm_num))]
    norm_num
  rw [e2, if_neg]
  rintro (h | h) <;> norm_num at h

/- ------------------------------------------------------------------ -/
/- Definitional shapes of the propagation model                       -/
/- ------------------------------------------------------------------ -/

theorem computeStationSignalFraction_none_lat (nowUtcH : ℝ) (userLng : Option ℝ)
    (station : Station) (freqKHz : ℝ) :
    computeStationSignalFraction nowUtcH none userLng station freqKHz = 0 := by
  cases userLng <;> rfl

theorem computeStationSignalFraction_none_lng (nowUtcH : ℝ) (userLat : Option ℝ)
    (station : Station) (freqKHz : ℝ) :
    computeStationSignalFraction nowUtcH userLat none station freqKHz = 0 := by
  cases userLat <;> rfl

/-- The body of `computeStationSignalFraction` when the listener position is
known, with its local bindings expanded. -/
theorem computeStationSignalFraction_some (nowUtcH la lo : ℝ) (station : Station)
    (freqKHz : ℝ) :
    computeStationSignalFraction nowUtcH (some la) (some lo) station freqKHz =
      clamp01
        ((station.power_watts * 1500 /
            (max (haversineKm la lo station.lat station.lng + 0.0001) 5.0) ^ (1.7 : ℝ) *
          frequencyMatchFactor station.frequency_khz freqKHz (isStationNight nowUtcH station) *
          (if isStationNight nowUtcH station then
            lerp 1.0 1.5 (clamp01 (1 - (freqKHz - 3000) / 12000)) else 1.0)) /
         (1 +
          station.power_watts * 1500 /
            (max (haversineKm la lo station.lat station.lng + 0.0001) 5.0) ^ (1.7 : ℝ) *
          frequencyMatchFactor station.frequency_khz freqKHz (isStationNight nowUtcH station) *
          (if isStationNight nowUtcH station then
            lerp 1.0 1.5 (clamp01 (1 - (freqKHz - 3000) / 12000)) else 1.0))) := rfl

/-- The body of `frequencyMatchFactor` with its local bindings expanded. -/
theorem frequencyMatchFactor_def (sf tf : ℝ) (b : Bool) :
    frequencyMatchFactor sf tf b =
      Real.exp (-(|sf - tf| * |sf - tf|) /
        (2 * (if b then (14000 : ℝ) else 18000) * (if b then (14000 : ℝ) else 18000))) := rfl

theorem frequencyMatchFactor_self (fq : ℝ) (b : Bool) : frequencyMatchFactor fq fq b = 1 := by
  rw [frequencyMatchFactor_def]
  simp [Real.exp_zero]

theorem frequencyMatchFactor_pos (sf tf : ℝ) (b : Bool) : 0 < frequencyMatchFactor sf tf b := by
  rw [frequencyMatchFactor_def]
  exact Real.exp_pos _

/-- A Gaussian falloff in the mismatch: a smaller absolute mismatch gives a
factor at least as large. -/
theorem frequencyMatchFactor_mono (b : Bool) {s1 q1 s2 q2 : ℝ}
    (h : |s1 - q1| ≤ |s2 - q2|) :
    frequencyMatchFactor s2 q2 b ≤ frequencyMatchFactor s1 q1 b := by
  rw [frequencyMatchFactor_def, frequencyMatchFactor_def]
  apply Real.exp_le_exp.mpr
  have hb : (0 : ℝ) < 2 * (if b then (14000 : ℝ) else 18000) * (if b then (14000 : ℝ) else 18000) := by
    cases b <;> norm_num
  have hmul : |s1 - q1| * |s1 - q1| ≤ |s2 - q2| * |s2 - q2| :=
    mul_self_le_mul_self (abs_nonneg _) h
  exact (div_le_div_right hb).mpr (by linarith)

theorem lerp_boost_bounds (u : ℝ) :
    1 ≤ lerp 1.0 1.5 (clamp01 u) ∧ lerp 1.0 1.5 (clamp01 u) ≤ 1.5 := by
  have h := clamp01_mem (x := u)
  unfold lerp
  constructor <;> nlinarith [h.1, h.2]

theorem nightBoost_nonneg (b : Bool) (fq : ℝ) :
    0 ≤ (if b then lerp 1.0 1.5 (clamp01 (1 - (fq - 3000) / 12000)) else 1.0) := by
  cases b
  · rw [if_neg Bool.false_ne_true]
    norm_num
  · rw [if_pos rfl]
    have := (lerp_boost_bounds (1 - (fq - 3000) / 12000)).1
    linarith

theorem distPart_nonneg (la lo : ℝ) (station : Station) (hp : 0 ≤ station.power_watts) :
    0 ≤ station.power_watts * 1500 /
      (max (haversineKm la lo station.lat station.lng + 0.0001) 5.0) ^ (1.7 : ℝ) :=
  div_nonneg (by nlinarith)
    (Real.rpow_nonneg (le_trans (by norm_num) (le_max_right _ _)) _)

theorem distPart_pos (la lo : ℝ) (station : Station) (hp : 0 < station.power_watts) :
    0 < station.power_watts * 1500 /
      (max (haversineKm la lo station.lat station.lng + 0.0001) 5.0) ^ (1.7 : ℝ) :=
  div_pos (by nlinarith)
    (Real.rpow_pos_of_pos (lt_of_lt_of_le (by norm_num) (le_max_right _ _)) _)

/-- Monotonicity of the saturating combine step in the frequency factor. -/
theorem fraction_core_mono {P B F1 F2 : ℝ} (hP : 0 ≤ P) (hB : 0 ≤ B) (hF2 : 0 ≤ F2)
    (hF : F2 ≤ F1) :
    clamp01 (P * F2 * B / (1 + P * F2 * B)) ≤ clamp01 (P * F1 * B / (1 + P * F1 * B)) := by
  have h2 : 0 ≤ P * F2 * B := mul_nonneg (mul_nonneg hP hF2) hB
  have hle : P * F2 * B ≤ P * F1 * B :=
    mul_le_mul_of_nonneg_right (mul_le_mul_of_nonneg_left hF hP) hB
  exact clamp_satlin_le h2 hle

/- ------------------------------------------------------------------ -/
/- C7                                                                 -/
/- ------------------------------------------------------------------ -/

/-- C7: with the listener at (51.5, -0.12), a 50000 W station at
(51.0, -0.10) on 9600 kHz, tuned to 9600 kHz, the signal fraction at any
instant classified as night strictly exceeds the fraction at any instant
classified as day. -/
theorem night_fraction_exceeds_day (tn td : ℝ)
    (hn : isStationNight tn st7 = true) (hd : isStationNight td st7 = false) :
    computeStationSignalFraction td (some 51.5) (some (-0.12)) st7 9600 <
    computeStationSignalFraction tn (some 51.5) (some (-0.12)) st7 9600 := by
  rw [computeStationSignalFraction_some, computeStationSignalFraction_some, hn, hd,
    show st7.frequency_khz = (9600 : ℝ) from rfl, frequencyMatchFactor_self,
    frequencyMatchFactor_self]
  have hbt : (if (true : Bool) then lerp 1.0 1.5 (clamp01 (1 - ((9600 : ℝ) - 3000) / 12000))
      else 1.0) = 1.225 := by
    rw [if_pos rfl, show (1 - ((9600 : ℝ) - 3000) / 12000) = 0.45 by norm_num,
      clamp01_eq_self (by norm_num) (by norm_num)]
    unfold lerp
    norm_num
  have hbf : (if (false : Bool) then lerp 1.0 1.5 (clamp01 (1 - ((9600 : ℝ) - 3000) / 12000))
      else 1.0) = 1.0 := by
    rw [if_neg Bool.false_ne_true]
  rw [hbt, hbf]
  have hD := distPart_pos 51.5 (-0.12) st7 (by norm_num [st7])
  exact clamp_satlin_lt (by nlinarith) (by nlinarith)

/-- C7 witness: 00:00 UTC is a night instant and 12:00 UTC a day instant for
this station, and the night fraction strictly exceeds the day fraction. -/
theorem night_fraction_exceeds_day_witness :
    isStationNight 0 st7 = true ∧ isStationNight 12 st7 = false ∧
    computeStationSignalFraction 12 (some 51.5) (some (-0.12)) st7 9600 <
    computeStationSignalFraction 0 (some 51.5) (some (-0.12)) st7 9600 :=
  ⟨isStationNight_st7_at0, isStationNight_st7_at12,
   night_fraction_exceeds_day 0 12 isStationNight_st7_at0 isStationNight_st7_at12⟩

/- ------------------------------------------------------------------ -/
/- C4                                                                 -/
/- ------------------------------------------------------------------ -/

theorem isStationNight_set_freq (nowUtcH : ℝ) (station : Station) (f : ℝ) :
    isStationNight nowUtcH { station with frequency_khz := f } =
      isStationNight nowUtcH station := rfl

/-- C4 counterexample: at a night instant (00:00 UTC for the station at
longitude -0.10), with station, listener position, power and day/night state
all fixed, moving the tuned frequency from 9600 kHz (zero mismatch) to
3000 kHz (6600 kHz mismatch) strictly increases the signal fraction: the
frequency-dependent night boost overwhelms the Gaussian mismatch falloff. -/
theorem fraction_mismatch_cex :
    |st7.frequency_khz - 9600| ≤ |st7.frequency_khz - 3000| ∧
    computeStationSignalFraction 0 (some 51.5) (some (-0.12)) st7 9600 <
    computeStationSignalFraction 0 (some 51.5) (some (-0.12)) st7 3000 := by
  constructor
  · rw [show st7.frequency_khz = (9600 : ℝ) from rfl]
    norm_num
  · rw [computeStationSignalFraction_some, computeStationSignalFraction_some,
      isStationNight_st7_at0, show st7.frequency_khz = (9600 : ℝ) from rfl,
      frequencyMatchFactor_self]
    have hbt : (if (true : Bool) then lerp 1.0 1.5 (clamp01 (1 - ((9600 : ℝ) - 3000) / 12000))
        else 1.0) = 1.225 := by
      rw [if_pos rfl, show (1 - ((9600 : ℝ) - 3000) / 12000) = 0.45 by norm_num,
        clamp01_eq_self (by norm_num) (by norm_num)]
      unfold lerp
      norm_num
    have hb3 : (if (true : Bool) then lerp 1.0 1.5 (clamp01 (1 - ((3000 : ℝ) - 3000) / 12000))
        else 1.0) = 1.5 := by
      rw [if_pos rfl, show (1 - ((3000 : ℝ) - 3000) / 12000) = 1 by norm_num,
        clamp01_eq_self (by norm_num) (by norm_num)]
      unfold lerp
      norm_num
    rw [hbt, hb3]
    have hD := distPart_pos 51.5 (-0.12) st7 (by norm_num [st7])
    have hF : (8711 / 9800 : ℝ) ≤ frequencyMatchFactor 9600 3000 true := by
      rw [frequencyMatchFactor_def, if_pos rfl]
      have h := Real.add_one_le_exp (-(|(9600 : ℝ) - 3000| * |9600 - 3000|) / (2 * 14000 * 14000))
      have harg : (-(|(9600 : ℝ) - 3000| * |9600 - 3000|) / (2 * 14000 * 14000)) =
          -(1089 / 9800) := by
        rw [show |(9600 : ℝ) - 3000| = 6600 by norm_num]
        norm_num
      rw [harg] at h ⊢
      linarith
    have hFD := mul_le_mul_of_nonneg_left hF hD.le
    exact clamp_satlin_lt (by nlinarith) (by nlinarith)

/-- C4 amended: the signal fraction is monotonically non-increasing in the
absolute mismatch |stationFreq - tunedFreq| whenever the night-boost input is
unchanged — that is, when the mismatch varies through the station's carrier
frequency (first part), or, for variation of the tuned frequency, when the
station is classified as day (second part).  At night, varying the tuned
frequency also changes the night boost, and the fraction can increase with
the mismatch (see the counterexample). -/
theorem fraction_mono_in_mismatch (nowUtcH : ℝ) (userLat userLng : Option ℝ)
    (station : Station) (freqKHz : ℝ) (hp : 0 ≤ station.power_watts) :
    (∀ f1 f2 : ℝ, |f1 - freqKHz| ≤ |f2 - freqKHz| →
      computeStationSignalFraction nowUtcH userLat userLng
          { station with frequency_khz := f2 } freqKHz ≤
        computeStationSignalFraction nowUtcH userLat userLng
          { station with frequency_khz := f1 } freqKHz) ∧
    (isStationNight nowUtcH station = false →
      ∀ q1 q2 : ℝ, |station.frequency_khz - q1| ≤ |station.frequency_khz - q2| →
        computeStationSignalFraction nowUtcH userLat userLng station q2 ≤
          computeStationSignalFraction nowUtcH userLat userLng station q1) := by
  constructor
  · intro f1 f2 h
    match userLat, userLng with
    | none, _ =>
      rw [computeStationSignalFraction_none_lat, computeStationSignalFraction_none_lat]
    | some la, none =>
      rw [computeStationSignalFraction_none_lng, computeStationSignalFraction_none_lng]
    | some la, some lo =>
      rw [computeStationSignalFraction_some, computeStationSignalFraction_some,
        isStationNight_set_freq, isStationNight_set_freq]
      dsimp only
      exact fraction_core_mono (distPart_nonneg la lo station hp)
        (nightBoost_nonneg _ _) (frequencyMatchFactor_pos _ _ _).le
        (frequencyMatchFactor_mono _ h)
  · intro hday q1 q2 h
    match userLat, userLng with
    | none, _ =>
      rw [computeStationSignalFraction_none_lat, computeStationSignalFraction_none_lat]
    | some la, none =>
      rw [computeStationSignalFraction_none_lng, computeStationSignalFraction_none_lng]
    | some la, some lo =>
      rw [computeStationSignalFraction_some, computeStationSignalFraction_some, hday]
      simp only [Bool.false_eq_true, if_false]
      exact fraction_core_mono (distPart_nonneg la lo station hp) (by norm_num)
        (frequencyMatchFactor_pos _ _ _).le (frequencyMatchFactor_mono _ h)

/-- C4 witness: the amended monotonicity applied at the station of the
end-to-end test with mismatches 0 and 6600 kHz. -/
theorem fraction_mono_in_mismatch_witness :
    (0 : ℝ) ≤ st7.power_watts ∧
    ((∀ f1 f2 : ℝ, |f1 - 9600| ≤ |f2 - 9600| →
      computeStationSignalFraction 0 (some 51.5) (some (-0.12))
          { st7 with frequency_khz := f2 } 9600 ≤
        computeStationSignalFraction 0 (some 51.5) (some (-0.12))
          { st7 with frequency_khz := f1 } 9600) ∧
    (isStationNight 0 st7 = false →
      ∀ q1 q2 : ℝ, |st7.frequency_khz - q1| ≤ |st7.frequency_khz - q2| →
        computeStationSignalFraction 0 (some 51.5) (some (-0.12)) st7 q2 ≤
          computeStationSignalFraction 0 (some 51.5) (some (-0.12)) st7 q1)) :=
  ⟨by norm_num [st7],
   fraction_mono_in_mismatch 0 (some 51.5) (some (-0.12)) st7 9600 (by norm_num [st7])⟩

/- ------------------------------------------------------------------ -/
/- C2 and C9: the station selector                                    -/
/- ------------------------------------------------------------------ -/

/-- `findBestStation` is the guarded fold of `bestStep`. -/
theorem findBestStation_eq (nowUtcH : ℝ) (userLat userLng : Option ℝ)
    (stations : List Station) (freqKHz : ℝ) :
    findBestStation nowUtcH userLat userLng stations freqKHz =
      if stations.length = 0 then (none, 0)
      else stations.foldl
        (bestStep (fun s => computeStationSignalFraction nowUtcH userLat userLng s freqKHz))
        (none, 0) := rfl

theorem computeStationSignalFraction_nonneg (nowUtcH : ℝ) (userLat userLng : Option ℝ)
    (station : Station) (freqKHz : ℝ) :
    0 ≤ computeStationSignalFraction nowUtcH userLat userLng station freqKHz := by
  match userLat, userLng with
  | some la, some lo =>
    rw [computeStationSignalFraction_some]
    exact clamp01_nonneg _
  | none, _ =>
    rw [computeStationSignalFraction_none_lat]
  | some la, none =>
    rw [computeStationSignalFraction_none_lng]

/-- The running maximum of the selector fold bounds the accumulator and every
fraction seen so far. -/
theorem bestFold_bound (frac : Station → ℝ) (ss : List Station) (acc : Option Station × ℝ) :
    acc.2 ≤ (ss.foldl (bestStep frac) acc).2 ∧
    ∀ s ∈ ss, frac s ≤ (ss.foldl (bestStep frac) acc).2 := by
  induction ss generalizing acc with
  | nil =>
    exact ⟨le_refl _, by simp⟩
  | cons a l ih =>
    simp only [List.foldl_cons]
    have hstep : acc.2 ≤ (bestStep frac acc a).2 ∧ frac a ≤ (bestStep frac acc a).2 := by
      unfold bestStep
      by_cases h : acc.2 < frac a
      · rw [if_pos h]
        exact ⟨h.le, le_refl _⟩
      · rw [if_neg h]
        exact ⟨le_refl _, not_lt.mp h⟩
    obtain ⟨h1, h2⟩ := ih (bestStep frac acc a)
    refine ⟨le_trans hstep.1 h1, ?_⟩
    intro s hs
    rcases List.mem_cons.mp hs with rfl | hs2
    · exact le_trans hstep.2 h1
    · exact h2 s hs2

/-- Either the selector fold never updates its accumulator (every fraction is
at most the starting score), or it returns the first station attaining the
final score, every earlier station scoring strictly less. -/
theorem bestFold_sel (frac : Station → ℝ) (ss : List Station) (acc : Option Station × ℝ) :
    (ss.foldl (bestStep frac) acc = acc ∧ ∀ s ∈ ss, frac s ≤ acc.2) ∨
    (∃ s pre post, ss = pre ++ s :: post ∧
      (ss.foldl (bestStep frac) acc).1 = some s ∧
      frac s = (ss.foldl (bestStep frac) acc).2 ∧
      acc.2 < (ss.foldl (bestStep frac) acc).2 ∧
      ∀ u ∈ pre, frac u < (ss.foldl (bestStep frac) acc).2) := by
  induction ss generalizing acc with
  | nil =>
    left
    exact ⟨rfl, by simp⟩
  | cons a l ih =>
    simp only [List.foldl_cons]
    by_cases h : acc.2 < frac a
    · have hstep : bestStep frac acc a = (some a, frac a) := by
        unfold bestStep
        rw [if_pos h]
      rw [hstep]
      rcases ih (some a, frac a) with ⟨heq, hall⟩ | ⟨s, pre, post, hsplit, h1, h2, h3, h4⟩
      · right
        refine ⟨a, [], l, by simp, ?_, ?_, ?_, by simp⟩
        · rw [heq]
        · rw [heq]
        · rw [heq]
          exact h
      · right
        refine ⟨s, a :: pre, post, by rw [hsplit, List.cons_append], h1, h2, ?_, ?_⟩
        · exact lt_trans h h3
        · intro u hu
          rcases List.mem_cons.mp hu with rfl | hu2
          · exact h3
          · exact h4 u hu2
    · have hstep : bestStep frac acc a = acc := by
        unfold bestStep
        rw [if_neg h]
      rw [hstep]
      rcases ih acc with ⟨heq, hall⟩ | ⟨s, pre, post, hsplit, h1, h2, h3, h4⟩
      · left
        refine ⟨heq, ?_⟩
        intro u hu
        rcases List.mem_cons.mp hu with rfl | hu2
        · exact not_lt.mp h
        · exact hall u hu2
      · right
        refine ⟨s, a :: pre, post, by rw [hsplit, List.cons_append], h1, h2, h3, ?_⟩
        intro u hu
        rcases List.mem_cons.mp hu with rfl | hu2
        · exact lt_of_le_of_lt (not_lt.mp h) h3
        · exact h4 u hu2

/-- When every fraction is zero, the selector never selects: it returns
`(none, 0)` even for a non-empty list. -/
theorem findBestStation_of_all_zero (nowUtcH : ℝ) (userLat userLng : Option ℝ)
    (stations : List Station) (freqKHz : ℝ) (hne : stations ≠ [])
    (hz : ∀ s ∈ stations,
      computeStationSignalFraction nowUtcH userLat userLng s freqKHz = 0) :
    findBestStation nowUtcH userLat userLng stations freqKHz = (none, 0) := by
  have hlen : ¬stations.length = 0 := by
    simpa [List.length_eq_zero] using hne
  rw [findBestStation_eq, if_neg hlen]
  rcases bestFold_sel
      (fun s => computeStationSignalFraction nowUtcH userLat userLng s freqKHz)
      stations (none, 0) with ⟨hEq, _⟩ | ⟨s, pre, post, hsplit, h1, h2, h3, _⟩
  · exact hEq
  · exfalso
    have hmem : s ∈ stations := by
      rw [hsplit]
      exact List.mem_append_right _ (List.mem_cons_self s post)
    rw [hz s hmem] at h2
    rw [← h2] at h3
    exact lt_irrefl 0 h3

/-- C2 counterexample: for the non-empty list `[st7]` with the listener
position unknown, every fraction is 0 — so `st7` (trivially) achieves the
maximum — yet `findBestStation` returns no station at all, not the
maximum-achieving station. -/
theorem findBestStation_zero_max_cex :
    ([st7] : List Station) ≠ [] ∧
    (∀ s ∈ ([st7] : List Station), computeStationSignalFraction 0 none none s 9600 = 0) ∧
    (findBestStation 0 none none [st7] 9600).1 = none := by
  have hz : ∀ s ∈ ([st7] : List Station),
      computeStationSignalFraction 0 none none s 9600 = 0 := by
    intro s hs
    rw [List.mem_singleton] at hs
    subst hs
    rfl
  refine ⟨by simp, hz, ?_⟩
  rw [findBestStation_of_all_zero 0 none none [st7] 9600 (by simp) hz]

/-- C2 amended: `findBestStation` returns `(none, 0)` on the empty list; its
returned fraction bounds every station's fraction (and is attained and
positive whenever a station is returned, that station being the first in
load order to attain it); but when the maximum fraction is 0 — e.g. with the
listener position unknown — it returns `none` rather than the first
maximum-achieving station of a non-empty list. -/
theorem findBestStation_spec (nowUtcH : ℝ) (userLat userLng : Option ℝ)
    (stations : List Station) (freqKHz : ℝ) :
    (stations = [] → findBestStation nowUtcH userLat userLng stations freqKHz = (none, 0)) ∧
    (∀ s ∈ stations, computeStationSignalFraction nowUtcH userLat userLng s freqKHz ≤
      (findBestStation nowUtcH userLat userLng stations freqKHz).2) ∧
    0 ≤ (findBestStation nowUtcH userLat userLng stations freqKHz).2 ∧
    ((findBestStation nowUtcH userLat userLng stations freqKHz).1 = none →
      (findBestStation nowUtcH userLat userLng stations freqKHz).2 = 0) ∧
    (∀ s, (findBestStation nowUtcH userLat userLng stations freqKHz).1 = some s →
      computeStationSignalFraction nowUtcH userLat userLng s freqKHz =
        (findBestStation nowUtcH userLat userLng stations freqKHz).2 ∧
      0 < (findBestStation nowUtcH userLat userLng stations freqKHz).2 ∧
      ∃ pre post, stations = pre ++ s :: post ∧
        ∀ u ∈ pre, computeStationSignalFraction nowUtcH userLat userLng u freqKHz <
          (findBestStation nowUtcH userLat userLng stations freqKHz).2) := by
  rcases stations with _ | ⟨a, l⟩
  · refine ⟨fun _ => rfl, ?_, le_refl 0, fun _ => rfl, ?_⟩
    · intro s hs
      exact absurd hs (List.not_mem_nil s)
    · intro s hs
      have h' : (none : Option Station) = some s := hs
      exact Option.noConfusion h'
  · have hlen : ¬(a :: l).length = 0 := by simp
    have heq : findBestStation nowUtcH userLat userLng (a :: l) freqKHz =
        (a :: l).foldl
          (bestStep (fun s => computeStationSignalFraction nowUtcH userLat userLng s freqKHz))
          (none, 0) := by
      rw [findBestStation_eq, if_neg hlen]
    have bound := bestFold_bound
      (fun s => computeStationSignalFraction nowUtcH userLat userLng s freqKHz) (a :: l) (none, 0)
    have sel := bestFold_sel
      (fun s => computeStationSignalFraction nowUtcH userLat userLng s freqKHz) (a :: l) (none, 0)
    refine ⟨fun hcontra => absurd hcontra (by simp), ?_, ?_, ?_, ?_⟩
    · intro s hs
      rw [heq]
      exact bound.2 s hs
    · rw [heq]
      exact bound.1
    · intro hnone
      rw [heq] at hnone ⊢
      rcases sel with ⟨hEq, _⟩ | ⟨s, pre, post, hsplit, h1, h2, h3, h4⟩
      · rw [hEq]
      · rw [hnone] at h1
        exact Option.noConfusion h1
    · intro s hs
      rw [heq] at hs ⊢
      rcases sel with ⟨hEq, _⟩ | ⟨s', pre, post, hsplit, h1, h2, h3, h4⟩
      · rw [hEq] at hs
        have h' : (none : Option Station) = some s := hs
        exact Option.noConfusion h'
      · rw [h1] at hs
        injection hs with hsx
        subst hsx
        exact ⟨h2, h3, pre, post, hsplit, h4⟩

/-- C2 witness: the amended selector specification instantiated on the
singleton list `[st7]` with the listener at (51.5, -0.12). -/
theorem findBestStation_spec_witness :
    (([st7] : List Station) = [] →
      findBestStation 0 (some 51.5) (some (-0.12)) [st7] 9600 = (none, 0)) ∧
    (∀ s ∈ ([st7] : List Station),
      computeStationSignalFraction 0 (some 51.5) (some (-0.12)) s 9600 ≤
      (findBestStation 0 (some 51.5) (some (-0.12)) [st7] 9600).2) ∧
    0 ≤ (findBestStation 0 (some 51.5) (some (-0.12)) [st7] 9600).2 ∧
    ((findBestStation 0 (some 51.5) (some (-0.12)) [st7] 9600).1 = none →
      (findBestStation 0 (some 51.5) (some (-0.12)) [st7] 9600).2 = 0) ∧
    (∀ s, (findBestStation 0 (some 51.5) (some (-0.12)) [st7] 9600).1 = some s →
      computeStationSignalFraction 0 (some 51.5) (some (-0.12)) s 9600 =
        (findBestStation 0 (some 51.5) (some (-0.12)) [st7] 9600).2 ∧
      0 < (findBestStation 0 (some 51.5) (some (-0.12)) [st7] 9600).2 ∧
      ∃ pre post, ([st7] : List Station) = pre ++ s :: post ∧
        ∀ u ∈ pre, computeStationSignalFraction 0 (some 51.5) (some (-0.12)) u 9600 <
          (findBestStation 0 (some 51.5) (some (-0.12)) [st7] 9600).2) :=
  findBestStation_spec 0 (some 51.5) (some (-0.12)) [st7] 9600

/-- C9: for every non-empty station list in which every station's computed
signal fraction is 0 (for example because the listener position is not yet
known), `findBestStation` returns `(none, 0)`: no station is reported as
best even though the list is non-empty. -/
theorem findBestStation_allZero (nowUtcH : ℝ) (userLat userLng : Option ℝ)
    (stations : List Station) (freqKHz : ℝ) (hne : stations ≠ [])
    (hz : ∀ s ∈ stations,
      computeStationSignalFraction nowUtcH userLat userLng s freqKHz = 0) :
    findBestStation nowUtcH userLat userLng stations freqKHz = (none, 0) :=
  findBestStation_of_all_zero nowUtcH userLat userLng stations freqKHz hne hz

/-- C9 witness: the singleton list with the listener position unknown. -/
theorem findBestStation_allZero_witness :
    (([st7] : List Station) ≠ []) ∧
    (∀ s ∈ ([st7] : List Station), computeStationSignalFraction 12 none none s 9600 = 0) ∧
    findBestStation 12 none none [st7] 9600 = (none, 0) := by
  have hz : ∀ s ∈ ([st7] : List Station),
      computeStationSignalFraction 12 none none s 9600 = 0 := by
    intro s hs
    rw [List.mem_singleton] at hs
    subst hs
    rfl
  exact ⟨by simp, hz, findBestStation_allZero 12 none none [st7] 9600 (by simp) hz⟩

/- ------------------------------------------------------------------ -/
/- C5: the QSB phase accumulator                                      -/
/- ------------------------------------------------------------------ -/

theorem applyAudioUpdates_phase_step (st : AudioState) (fq : ℝ) (bs : Option Station)
    (strength now rand : ℝ) (h : st.lastTime ≤ now) :
    st.qsbPhase ≤ (applyAudioUpdates st fq bs strength now rand).1.qsbPhase := by
  show st.qsbPhase ≤
    st.qsbPhase + lerp 0.08 1.2 (clamp01 (1 - strength)) * ((now - st.lastTime) / 1000)
  have hc := clamp01_mem (x := 1 - strength)
  have hr : 0 ≤ lerp 0.08 1.2 (clamp01 (1 - strength)) := by
    unfold lerp
    nlinarith [hc.1, hc.2]
  have hd : 0 ≤ (now - st.lastTime) / 1000 := by
    apply div_nonneg <;> linarith
  nlinarith [mul_nonneg hr hd]

/-- C5 amended: across every sequence of update ticks with non-decreasing
timestamps, the QSB phase accumulator never decreases; however it is not
wrapped modulo 1 — it grows without bound (see the counterexample, where one
tick pushes it to 12). -/
theorem qsbPhase_monotone (st : AudioState) (ticks : List Tick)
    (hv : ticksValid st ticks) :
    st.qsbPhase ≤ (runAudioUpdates st ticks).qsbPhase := by
  induction ticks generalizing st with
  | nil => exact le_refl _
  | cons tk rest ih =>
    obtain ⟨h1, h2⟩ := hv
    show st.qsbPhase ≤
      (runAudioUpdates
        (applyAudioUpdates st tk.freqKHz tk.bestStation tk.strength tk.now tk.rand).1
        rest).qsbPhase
    exact le_trans
      (applyAudioUpdates_phase_step st tk.freqKHz tk.bestStation tk.strength tk.now tk.rand h1)
      (ih _ h2)

/-- C5 witness: one valid tick, phase does not decrease. -/
theorem qsbPhase_monotone_witness :
    ticksValid ⟨0, 0⟩ [⟨6000, none, 0.5, 1000, 0⟩] ∧
    (⟨0, 0⟩ : AudioState).qsbPhase ≤
      (runAudioUpdates ⟨0, 0⟩ [⟨6000, none, 0.5, 1000, 0⟩]).qsbPhase := by
  have hv : ticksValid ⟨0, 0⟩ [⟨6000, none, 0.5, 1000, 0⟩] := by
    refine ⟨?_, trivial⟩
    show (0 : ℝ) ≤ 1000
    norm_num
  exact ⟨hv, qsbPhase_monotone _ _ hv⟩

/-- C5 counterexample: the accumulator is not kept wrapped modulo 1.  A
single 10-second tick at zero strength (QSB rate 1.2 Hz) drives the phase to
12, far outside [0, 1): `qsbPhase += qsbRate * dt` has no wrap. -/
theorem qsbPhase_not_wrapped_cex :
    ticksValid ⟨0, 0⟩ [⟨6000, none, 0, 10000, 0⟩] ∧
    (runAudioUpdates ⟨0, 0⟩ [⟨6000, none, 0, 10000, 0⟩]).qsbPhase = 12 ∧
    1 < (runAudioUpdates ⟨0, 0⟩ [⟨6000, none, 0, 10000, 0⟩]).qsbPhase := by
  have hrun : (runAudioUpdates ⟨0, 0⟩ [⟨6000, none, 0, 10000, 0⟩]).qsbPhase = 12 := by
    show (0 : ℝ) + lerp 0.08 1.2 (clamp01 (1 - 0)) * ((10000 - 0) / 1000) = 12
    have hc : clamp01 ((1 : ℝ) - 0) = 1 := by
      rw [show ((1 : ℝ) - 0) = 1 by norm_num, clamp01_eq_self (by norm_num) (by norm_num)]
    rw [hc]
    unfold lerp
    norm_num
  refine ⟨⟨?_, trivial⟩, hrun, ?_⟩
  · show (0 : ℝ) ≤ 10000
    norm_num
  · rw [hrun]
    norm_num

/- ------------------------------------------------------------------ -/
/- C10: the noise-gain target                                         -/
/- ------------------------------------------------------------------ -/

/-- C10: on every update tick, for every signal fraction in [0, 1], the
noise-gain target pushed to the noise branch equals lerp(0.9, 0.02, fraction),
hence lies in [0.02, 0.9] (never fully silent, never above 0.9), and is
monotonically non-increasing in the fraction. -/
theorem noise_gain_target_spec (st : AudioState) (fq : ℝ) (bs : Option Station)
    (now rand frac : ℝ) (h0 : 0 ≤ frac) (h1 : frac ≤ 1) :
    (applyAudioUpdates st fq bs frac now rand).2.noiseLvl = lerp 0.9 0.02 frac ∧
    0.02 ≤ (applyAudioUpdates st fq bs frac now rand).2.noiseLvl ∧
    (applyAudioUpdates st fq bs frac now rand).2.noiseLvl ≤ 0.9 ∧
    ∀ frac2 : ℝ, frac ≤ frac2 → frac2 ≤ 1 →
      (applyAudioUpdates st fq bs frac2 now rand).2.noiseLvl ≤
        (applyAudioUpdates st fq bs frac now rand).2.noiseLvl := by
  have hdef : ∀ f : ℝ, (applyAudioUpdates st fq bs f now rand).2.noiseLvl = lerp 0.9 0.02 f :=
    fun f => rfl
  refine ⟨hdef frac, ?_, ?_, ?_⟩
  · rw [hdef frac]
    unfold lerp
    nlinarith
  · rw [hdef frac]
    unfold lerp
    nlinarith
  · intro frac2 ha hb
    rw [hdef frac, hdef frac2]
    unfold lerp
    nlinarith

/-- C10 witness: the noise-gain bound at fraction 0.5. -/
theorem noise_gain_target_spec_witness :
    (0 : ℝ) ≤ 0.5 ∧ (0.5 : ℝ) ≤ 1 ∧
    ((applyAudioUpdates ⟨0, 0⟩ 6000 none 0.5 0 0).2.noiseLvl = lerp 0.9 0.02 0.5 ∧
     0.02 ≤ (applyAudioUpdates ⟨0, 0⟩ 6000 none 0.5 0 0).2.noiseLvl ∧
     (applyAudioUpdates ⟨0, 0⟩ 6000 none 0.5 0 0).2.noiseLvl ≤ 0.9 ∧
     ∀ frac2 : ℝ, 0.5 ≤ frac2 → frac2 ≤ 1 →
       (applyAudioUpdates ⟨0, 0⟩ 6000 none frac2 0 0).2.noiseLvl ≤
         (applyAudioUpdates ⟨0, 0⟩ 6000 none 0.5 0 0).2.noiseLvl) :=
  ⟨by norm_num, by norm_num,
   noise_gain_target_spec ⟨0, 0⟩ 6000 none 0 0 0.5 (by norm_num) (by norm_num)⟩

/- ------------------------------------------------------------------ -/
/- C8: the station source switch                                      -/
/- ------------------------------------------------------------------ -/

theorem listStartsWith_refl (l : List Char) : listStartsWith l l = true := by
  induction l with
  | nil => rfl
  | cons c s ih => simp [listStartsWith, ih]

theorem jsIndexOf_self (l : List Char) : jsIndexOf l l = 0 := by
  cases l with
  | nil => rfl
  | cons c s =>
    unfold jsIndexOf
    simp [listStartsWith_refl]

/-- The body of `switchStationSource` on a present station. -/
theorem switchStationSource_some (ael : AudioElState) (s : Station) :
    switchStationSource ael (some s) =
      if s.audio ≠ "" then
        (if ael.src = "" ∨ jsIndexOf ael.src.data s.audio.data = -1 then
          { src := s.audio, loop := true, playCount := ael.playCount + 1 }
        else ael)
      else ael := rfl

/-- Switching to the asset that is already the element's source changes
nothing. -/
theorem switchStationSource_noop (ael : AudioElState) (s : Station)
    (h : s.audio = ael.src) (hne : s.audio ≠ "") :
    switchStationSource ael (some s) = ael := by
  rw [switchStationSource_some]
  rw [if_pos hne, if_neg]
  rintro (h1 | h2)
  · exact hne (h.trans h1)
  · rw [← h, jsIndexOf_self] at h2
    norm_num at h2

/-- C8: invoking the source switch with an asset reference equal to the one
currently playing leaves the audio element (source, loop flag, play count)
unchanged — playback is not restarted — and the switch is idempotent: a
second invocation with the same station is a no-op. -/
theorem switchStationSource_same_asset (ael : AudioElState) (s : Station)
    (hne : s.audio ≠ "") :
    (s.audio = ael.src → switchStationSource ael (some s) = ael) ∧
    switchStationSource (switchStationSource ael (some s)) (some s) =
      switchStationSource ael (some s) := by
  constructor
  · intro h
    exact switchStationSource_noop ael s h hne
  · by_cases hcond : ael.src = "" ∨ jsIndexOf ael.src.data s.audio.data = -1
    · have hfirst : switchStationSource ael (some s) =
          { src := s.audio, loop := true, playCount := ael.playCount + 1 } := by
        rw [switchStationSource_some, if_pos hne, if_pos hcond]
      rw [hfirst]
      exact switchStationSource_noop _ s rfl hne
    · have hfirst : switchStationSource ael (some s) = ael := by
        rw [switchStationSource_some, if_pos hne, if_neg hcond]
      rw [hfirst]
      exact hfirst

/-- C8 witness: switching to the already-playing demo asset is a no-op and
idempotent. -/
theorem switchStationSource_same_asset_witness :
    st7.audio ≠ "" ∧
    ((st7.audio = ({ src := "audio/station.mp3", loop := true, playCount := 1 } :
        AudioElState).src →
      switchStationSource { src := "audio/station.mp3", loop := true, playCount := 1 }
          (some st7) =
        { src := "audio/station.mp3", loop := true, playCount := 1 }) ∧
     switchStationSource
         (switchStationSource { src := "audio/station.mp3", loop := true, playCount := 1 }
           (some st7))
         (some st7) =
       switchStationSource { src := "audio/station.mp3", loop := true, playCount := 1 }
         (some st7)) := by
  have hne : st7.audio ≠ "" := by decide
  exact ⟨hne, switchStationSource_same_asset _ st7 hne⟩

end LonliLive

end
